import Mathlib

/-!
Verification development for the breadboard-client stream-decoding pipeline.

Text is modelled as `List Char`.  The three transform stages
(`transformServerEvent`, `transformChunkRepair`, `transformRunEvent`) and the
client utility `getNextToken` are shallow embeddings of the TypeScript
functions in `src/transforms.ts` and the client class: a stage is a pure
function from its input chunk (and, for the chunk repairer, its pending-buffer
state) to the list of values it enqueues (and its new state).  JSON values are
modelled by the inductive `Js`; `jsonParse` is an executable model of
`JSON.parse` and `jsToString` of JavaScript string coercion.
-/

namespace Breadboard

/-- JavaScript strings, modelled as lists of characters. -/
abbrev Str := List Char

/-- Embed a Lean string literal as a `Str`. -/
def str (s : String) : Str := s.data

/-- The whitespace characters recognised by the model of `trim` /
`JSON.parse` whitespace skipping. -/
def isJsWs : Char → Bool
  | ' ' | '\t' | '\n' | '\r' => true
  | _ => false

/-- Model of JavaScript `String.prototype.trim`. -/
def jsTrim (s : Str) : Str :=
  ((s.dropWhile isJsWs).reverse.dropWhile isJsWs).reverse

/-- The record delimiter `"\n\n"`. -/
def delim : Str := ['\n', '\n']

/-- Model of JavaScript `s.split("\n\n")`: split on the leftmost occurrence of
the two-newline delimiter, repeatedly. -/
def splitRecords : Str → List Str
  | [] => [[]]
  | '\n' :: '\n' :: rest => [] :: splitRecords rest
  | c :: rest =>
    match splitRecords rest with
    | [] => [[c]]
    | h :: t => (c :: h) :: t

/-- Model of JavaScript `s.endsWith("\n\n")`. -/
def endsWithDelim (s : Str) : Bool := s.reverse.take 2 == ['\n', '\n']

/-- The framing tag `"data: "` stripped by the server-event decoder. -/
def dataTag : Str := str "data: "

/-- Shallow embedding of `transformServerEvent` (src/transforms.ts):
given one text fragment, returns the list of chunks it enqueues. -/
def transformServerEvent (s : Str) : List Str :=
  if (jsTrim s).isEmpty then []
  else if dataTag.isPrefixOf s then [s.drop 6]
  else [s]

/-- `enqueue` of `transformChunkRepair`: every emitted record is re-suffixed
with the delimiter. -/
def emitRecord (s : Str) : Str := s ++ delim

/-- One non-broken segment of `transformChunkRepair`: if a pending partial
exists, the concatenation is re-split and each piece emitted; otherwise the
segment is emitted directly. -/
def emitWith (pending : Option Str) (c : Str) : List Str :=
  match pending with
  | some b => (splitRecords (b ++ c)).map emitRecord
  | none => [emitRecord c]

/-- The `for` loop of `transformChunkRepair` over the split segments, with
`missing` recording whether the fragment lacked a trailing delimiter.
Returns the enqueued records and the new pending buffer. -/
def repairLoop (missing : Bool) (pending : Option Str) :
    List Str → List Str × Option Str
  | [] => ([], pending)
  | [c] =>
    if missing then ([], some (pending.getD [] ++ c))
    else (emitWith pending c, none)
  | c :: c2 :: rest =>
    let out := emitWith pending c
    let r := repairLoop missing none (c2 :: rest)
    (out ++ r.1, r.2)

/-- Shallow embedding of `transformChunkRepair` (src/transforms.ts): given one
fragment and the pending broken-chunk state, returns the list of enqueued
records and the new state. -/
def transformChunkRepair (chunk : Str) (pending : Option Str) :
    List Str × Option Str :=
  let missing := !endsWithDelim chunk
  let segs := splitRecords chunk
  let segs := if missing then segs else segs.dropLast
  repairLoop missing pending segs

/-- Feed a list of fragments one at a time through `transformChunkRepair`,
threading the pending-buffer state; returns all enqueued records in order and
the final state. -/
def repairAll : List Str → Option Str → List Str × Option Str
  | [], p => ([], p)
  | f :: rest, p =>
    let r1 := transformChunkRepair f p
    let r2 := repairAll rest r1.2
    (r1.1 ++ r2.1, r2.2)

example : transformChunkRepair (str "complete\n\n") none =
    ([str "complete\n\n"], none) := by decide

example : transformChunkRepair (str "broken") none = ([], some (str "broken")) := by
  decide

example : transformChunkRepair (str "chunk1\n\nchunk2\n\n") none =
    ([str "chunk1\n\n", str "chunk2\n\n"], none) := by decide

example : transformChunkRepair (str "Continuation\n\n") (some (str "broken")) =
    ([str "brokenContinuation\n\n"], none) := by decide

example : transformServerEvent (str "data: hello") = [str "hello"] := by decide

example : transformServerEvent (str "   ") = [] := by decide

example : transformServerEvent (str "no tag") = [str "no tag"] := by decide

/-- JavaScript values as produced by `JSON.parse`.  Numbers keep their source
lexeme (no numeric semantics of a number is ever consulted by the client). -/
inductive Js where
  | null : Js
  | bool : Bool → Js
  | num : Str → Js
  | strV : Str → Js
  | arr : List Js → Js
  | obj : List (Str × Js) → Js

mutual

def decEqJs : (a b : Js) → Decidable (a = b)
  | .null, .null => isTrue rfl
  | .bool a, .bool b =>
    if h : a = b then isTrue (by rw [h]) else isFalse (by intro hh; injection hh; contradiction)
  | .num a, .num b =>
    if h : a = b then isTrue (by rw [h]) else isFalse (by intro hh; injection hh; contradiction)
  | .strV a, .strV b =>
    if h : a = b then isTrue (by rw [h]) else isFalse (by intro hh; injection hh; contradiction)
  | .arr xs, .arr ys =>
    match decEqJsList xs ys with
    | isTrue h => isTrue (by rw [h])
    | isFalse h => isFalse (by intro hh; injection hh; contradiction)
  | .obj xs, .obj ys =>
    match decEqJsFields xs ys with
    | isTrue h => isTrue (by rw [h])
    | isFalse h => isFalse (by intro hh; injection hh; contradiction)
  | .null, .bool _ | .null, .num _ | .null, .strV _ | .null, .arr _ | .null, .obj _
  | .bool _, .null | .bool _, .num _ | .bool _, .strV _ | .bool _, .arr _ | .bool _, .obj _
  | .num _, .null | .num _, .bool _ | .num _, .strV _ | .num _, .arr _ | .num _, .obj _
  | .strV _, .null | .strV _, .bool _ | .strV _, .num _ | .strV _, .arr _ | .strV _, .obj _
  | .arr _, .null | .arr _, .bool _ | .arr _, .num _ | .arr _, .strV _ | .arr _, .obj _
  | .obj _, .null | .obj _, .bool _ | .obj _, .num _ | .obj _, .strV _ | .obj _, .arr _ =>
    isFalse (by intro h; exact Js.noConfusion h)

def decEqJsList : (a b : List Js) → Decidable (a = b)
  | [], [] => isTrue rfl
  | [], _ :: _ => isFalse (by intro h; exact List.noConfusion h)
  | _ :: _, [] => isFalse (by intro h; exact List.noConfusion h)
  | x :: xs, y :: ys =>
    match decEqJs x y, decEqJsList xs ys with
    | isTrue h1, isTrue h2 => isTrue (by rw [h1, h2])
    | isFalse h1, _ => isFalse (by intro h; injection h; contradiction)
    | isTrue _, isFalse h2 => isFalse (by intro h; injection h; contradiction)

def decEqJsFields : (a b : List (Str × Js)) → Decidable (a = b)
  | [], [] => isTrue rfl
  | [], _ :: _ => isFalse (by intro h; exact List.noConfusion h)
  | _ :: _, [] => isFalse (by intro h; exact List.noConfusion h)
  | (k1, v1) :: xs, (k2, v2) :: ys =>
    match inferInstanceAs (Decidable (k1 = k2)), decEqJs v1 v2, decEqJsFields xs ys with
    | isTrue h0, isTrue h1, isTrue h2 => isTrue (by rw [h0, h1, h2])
    | isFalse h0, _, _ =>
      isFalse (by intro h; injection h with ha hb; injection ha; contradiction)
    | isTrue _, isFalse h1, _ =>
      isFalse (by intro h; injection h with ha hb; injection ha; contradiction)
    | isTrue _, isTrue _, isFalse h2 => isFalse (by intro h; injection h; contradiction)

end

instance : DecidableEq Js := decEqJs

mutual

/-- Model of JavaScript string coercion `String(v)` for JSON values. -/
def jsToString : Js → Str
  | .null => str "null"
  | .bool true => str "true"
  | .bool false => str "false"
  | .num s => s
  | .strV s => s
  | .arr xs => List.intercalate [','] (jsToStrings xs)
  | .obj _ => str "[object Object]"

/-- Elements of an array under `Array.prototype.toString`: `null` becomes the
empty string, every other element is coerced with `String(...)`. -/
def jsToStrings : List Js → List Str
  | [] => []
  | x :: xs => (match x with | Js.null => [] | y => jsToString y) :: jsToStrings xs

end

/-- Skip JSON whitespace. -/
def skipWs (s : Str) : Str := s.dropWhile isJsWs

/-- Translate a JSON escape character (the character after a backslash,
other than `u`). -/
def escChar : Char → Option Char
  | 't' => some '\t'
  | '"' => some '"'
  | 'n' => some '\n'
  | '\\' => some '\\'
  | 'r' => some '\r'
  | 'b' => some (Char.ofNat 0x08)
  | 'f' => some (Char.ofNat 0x0C)
  | '/' => some '/'
  | _ => none

/-- Value of a hexadecimal digit. -/
def hexVal (c : Char) : Option Nat :=
  let n := c.toNat
  if 48 ≤ n ∧ n ≤ 57 then some (n - 48)
  else if 97 ≤ n ∧ n ≤ 102 then some (n - 87)
  else if 65 ≤ n ∧ n ≤ 70 then some (n - 55)
  else none

/-- Parse the body of a JSON string (after the opening quote); `acc` holds the
already-read characters in reverse.  Returns the content and the rest of the
input after the closing quote. -/
def parseStrBody : Str → Str → Except Str (Str × Str)
  | [], _ => .error (str "Unterminated string in JSON")
  | '"' :: rest, acc => .ok (acc.reverse, rest)
  | '\\' :: rest, acc =>
    match rest with
    | [] => .error (str "Unterminated string in JSON")
    | 'u' :: r2 =>
      match r2 with
      | h1 :: h2 :: h3 :: h4 :: r3 =>
        match hexVal h1, hexVal h2, hexVal h3, hexVal h4 with
        | some a, some b, some c, some d =>
          parseStrBody r3 (Char.ofNat (((a * 16 + b) * 16 + c) * 16 + d) :: acc)
        | _, _, _, _ => .error (str "Bad Unicode escape in JSON")
      | _ => .error (str "Bad Unicode escape in JSON")
    | e :: r2 =>
      match escChar e with
      | some c => parseStrBody r2 (c :: acc)
      | none => .error (str "Bad escaped character in JSON")
  | c :: rest, acc => parseStrBody rest (c :: acc)

/-- Split a leading run of decimal digits off the input. -/
def takeDigits (s : Str) : Str × Str := (s.takeWhile Char.isDigit, s.dropWhile Char.isDigit)

/-- Parse a JSON number, returning its lexeme.  Grammar:
`-? (0 | [1-9][0-9]*) (. [0-9]+)? ([eE] [+-]? [0-9]+)?`. -/
def parseNum (s : Str) : Except Str (Js × Str) :=
  let (neg, s1) : Str × Str := match s with
    | '-' :: r => (['-'], r)
    | _ => ([], s)
  match s1 with
  | '0' :: r =>
    parseNumFrac neg ['0'] r
  | c :: _ =>
    if c.isDigit then
      let (ds, r) := takeDigits s1
      parseNumFrac neg ds r
    else .error (str "Unexpected token in JSON")
  | [] => .error (str "Unexpected token in JSON")
where
  parseNumFrac (neg ints : Str) (s : Str) : Except Str (Js × Str) :=
    match s with
    | '.' :: r =>
      let (ds, r2) := takeDigits r
      if ds.isEmpty then .error (str "Unexpected token in JSON")
      else parseNumExp (neg ++ ints ++ '.' :: ds) r2
    | _ => parseNumExp (neg ++ ints) s
  parseNumExp (lexeme : Str) (s : Str) : Except Str (Js × Str) :=
    match s with
    | 'e' :: r => parseNumExpDigits lexeme ['e'] r
    | 'E' :: r => parseNumExpDigits lexeme ['E'] r
    | _ => .ok (.num lexeme, s)
  parseNumExpDigits (lexeme mark : Str) (s : Str) : Except Str (Js × Str) :=
    let (sign, r) : Str × Str := match s with
      | '+' :: r2 => (['+'], r2)
      | '-' :: r2 => (['-'], r2)
      | _ => ([], s)
    let (ds, r2) := takeDigits r
    if ds.isEmpty then .error (str "Unexpected token in JSON")
    else .ok (.num (lexeme ++ mark ++ sign ++ ds), r2)

mutual

/-- Parse one JSON value (fuel-bounded); returns the value and the remaining
input. -/
def parseVal : Nat → Str → Except Str (Js × Str)
  | 0, _ => .error (str "Maximum nesting depth exceeded in JSON")
  | fuel + 1, s =>
    match skipWs s with
    | [] => .error (str "Unexpected end of JSON input")
    | '{' :: rest =>
      match skipWs rest with
      | '}' :: u2 => .ok (.obj [], u2)
      | u2 =>
        match parseObjItems fuel u2 with
        | .ok (kvs, u3) => .ok (.obj kvs, u3)
        | .error msg => .error msg
    | '[' :: rest =>
      match skipWs rest with
      | ']' :: u2 => .ok (.arr [], u2)
      | u2 =>
        match parseArrItems fuel u2 with
        | .ok (vs, u3) => .ok (.arr vs, u3)
        | .error msg => .error msg
    | '"' :: rest =>
      match parseStrBody rest [] with
      | .ok (cs, u2) => .ok (.strV cs, u2)
      | .error msg => .error msg
    | c :: rest =>
      if c.isDigit || c == '-' then parseNum (c :: rest)
      else if (str "null").isPrefixOf (c :: rest) then .ok (.null, (c :: rest).drop 4)
      else if (str "true").isPrefixOf (c :: rest) then .ok (.bool true, (c :: rest).drop 4)
      else if (str "false").isPrefixOf (c :: rest) then .ok (.bool false, (c :: rest).drop 5)
      else .error (str "Unexpected token in JSON")

/-- Parse the comma-separated items of a JSON array, up to and including the
closing bracket. -/
def parseArrItems : Nat → Str → Except Str (List Js × Str)
  | 0, _ => .error (str "Maximum nesting depth exceeded in JSON")
  | fuel + 1, s =>
    match parseVal fuel s with
    | .error msg => .error msg
    | .ok (v, u1) =>
      match skipWs u1 with
      | ',' :: u2 =>
        match parseArrItems fuel u2 with
        | .ok (vs, u3) => .ok (v :: vs, u3)
        | .error msg => .error msg
      | ']' :: u2 => .ok ([v], u2)
      | _ => .error (str "Expected comma or closing bracket in JSON array")

/-- Parse the members of a JSON object, up to and including the closing
brace. -/
def parseObjItems : Nat → Str → Except Str (List (Str × Js) × Str)
  | 0, _ => .error (str "Maximum nesting depth exceeded in JSON")
  | fuel + 1, s =>
    match skipWs s with
    | '"' :: rest =>
      match parseStrBody rest [] with
      | .error msg => .error msg
      | .ok (k, u1) =>
        match skipWs u1 with
        | ':' :: u2 =>
          match parseVal fuel u2 with
          | .error msg => .error msg
          | .ok (v, u3) =>
            match skipWs u3 with
            | ',' :: u4 =>
              match parseObjItems fuel u4 with
              | .ok (kvs, u5) => .ok ((k, v) :: kvs, u5)
              | .error msg => .error msg
            | '}' :: u4 => .ok ([(k, v)], u4)
            | _ => .error (str "Expected comma or closing brace in JSON object")
        | _ => .error (str "Expected colon in JSON object")
    | _ => .error (str "Expected string key in JSON object")

end

instance {α β : Type} [DecidableEq α] [DecidableEq β] : DecidableEq (Except α β) :=
  fun a b =>
    match a, b with
    | .ok x, .ok y =>
      if h : x = y then isTrue (by rw [h])
      else isFalse (by intro hh; injection hh; contradiction)
    | .error x, .error y =>
      if h : x = y then isTrue (by rw [h])
      else isFalse (by intro hh; injection hh; contradiction)
    | .ok _, .error _ => isFalse (by intro h; exact Except.noConfusion h)
    | .error _, .ok _ => isFalse (by intro h; exact Except.noConfusion h)

/-- Model of `JSON.parse`: parse one value, allow trailing whitespace, reject
anything else after it. -/
def jsonParse (s : Str) : Except Str Js :=
  match parseVal (2 * s.length + 4) s with
  | .error failure => .error failure
  | .ok (v, rem) =>
    if (skipWs rem).isEmpty then .ok v
    else .error (str "Unexpected non-whitespace character after JSON data")

example : jsonParse (str "[\"error\",\"e1\"]\n\n") =
    .ok (.arr [.strV (str "error"), .strV (str "e1")]) := by decide

example : jsonParse (str "[\"input\",\x7b\"node\":\x7b\"id\":\"n1\"\x7d\x7d,\"tok1\"]") =
    .ok (.arr [.strV (str "input"),
      .obj [(str "node", .obj [(str "id", .strV (str "n1"))])], .strV (str "tok1")]) := by
  decide

example : jsonParse (str "data: x") =
    .error (str "Unexpected token in JSON") := by decide

example : jsonParse (str "[1.5e3,-0.2,true,false,null]") =
    .ok (.arr [.num (str "1.5e3"), .num (str "-0.2"), .bool true, .bool false, .null]) := by
  decide

/-- A run event at the wire level: the elements of the enqueued JavaScript
array. -/
abbrev Event := List Js

/-- A synthesized error event `["error", msg]`. -/
def errEvent (msg : Str) : Event := [.strV (str "error"), .strV msg]

/-- The message of the structural-validation failure. -/
def msgInvalidFormat : Str := str "Invalid event format: expected array with at least 2 elements"

/-- The message of a parse failure, embedding the parser's reason. -/
def msgFailedParse (e : Str) : Str := str "Failed to parse event: " ++ e

/-- The message of an unknown discriminant, interpolating the offending
value. -/
def msgInvalidType (v : Js) : Str := str "Invalid event type: " ++ jsToString v

/-- Model of `["input", "output", "error"].includes(eventType)`: strict
equality against the three discriminants (only strings can match). -/
def validTag (v : Js) : Bool :=
  match v with
  | .strV s => s == str "input" || s == str "output" || s == str "error"
  | _ => false

/-- Shallow embedding of `transformRunEvent` (src/transforms.ts): given one
record, returns the list of events it enqueues. -/
def transformRunEvent (chunk : Str) : List Event :=
  if (jsTrim chunk).isEmpty then []
  else
    match jsonParse chunk with
    | .error e => [errEvent (msgFailedParse e)]
    | .ok (.arr (e0 :: e1 :: rest)) =>
      if validTag e0 then [e0 :: e1 :: rest]
      else [errEvent (msgInvalidType e0)]
    | .ok _ => [errEvent msgInvalidFormat]

example : transformRunEvent (str "[\"error\",\"e1\"]\n\n") =
    [[.strV (str "error"), .strV (str "e1")]] := by decide

example : transformRunEvent (str "") = [] := by decide

example : transformRunEvent (str "not json") =
    [errEvent (msgFailedParse (str "Unexpected token in JSON"))] := by decide

example : transformRunEvent (str "\x7b\x7d") = [errEvent msgInvalidFormat] := by decide

example : transformRunEvent (str "[\"bogus\",1]") =
    [errEvent (str "Invalid event type: bogus")] := by decide

/-- The body of the reverse loop of `BreadboardClient.getNextToken`: the token
of one event, when the event carries one. -/
def tokenOf (e : Event) : Option Js :=
  match e with
  | e0 :: _ :: t :: _ =>
    match e0 with
    | .strV s => if s == str "input" || s == str "output" then some t else none
    | _ => none
  | _ => none

/-- Scan a list of events front to back for the first token carrier. -/
def findToken : List Event → Option Js
  | [] => none
  | e :: rest =>
    match tokenOf e with
    | some t => some t
    | none => findToken rest

/-- Shallow embedding of `BreadboardClient.getNextToken`: loop from the last
event toward the first, returning `event[2]` of the first `input`/`output`
event with more than two elements. -/
def getNextToken (events : List Event) : Option Js := findToken events.reverse

example : getNextToken
    [[.strV (str "input"), .null, .strV (str "t1")],
     [.strV (str "output"), .null, .strV (str "t2")]] = some (.strV (str "t2")) := by decide

example : getNextToken [[.strV (str "error"), .strV (str "x")]] = none := by decide

/-- Concatenation of a list of output lists, in order. -/
def concatAll : List (List α) → List α
  | [] => []
  | x :: xs => x ++ concatAll xs

/-- Batch run of the server-event decoder stage over a list of chunks. -/
def stripAll (chunks : List Str) : List Str := concatAll (chunks.map transformServerEvent)

/-- Batch run of the run-event decoder stage over a list of records. -/
def decodeAll (records : List Str) : List Event := concatAll (records.map transformRunEvent)

/-- The streaming pipeline built by `BreadboardClient.runBoard`: each text
fragment passes through `chunkRepairTransform`, its outputs through
`serverStreamEventDecoder`, theirs through `runEventDecoder`, before the next
fragment is processed; the chunk-repair state is threaded across fragments. -/
def runBoardPipe : List Str → Option Str → List Event
  | [], _ => []
  | f :: rest, p =>
    let r := transformChunkRepair f p
    decodeAll (stripAll r.1) ++ runBoardPipe rest r.2

/-- The pipeline composed in the order the spec lists the stages: Prefix
Stripper first, then Chunk Reassembler, then Event Decoder. -/
def specOrderPipe (frags : List Str) : List Event :=
  decodeAll ((repairAll (stripAll frags) none).1)

example : runBoardPipe [str "data: [\"error\",\"e1\"]\n\nda", str "ta: [\"error\",\"e2\"]\n\n"] none =
    [[.strV (str "error"), .strV (str "e1")], [.strV (str "error"), .strV (str "e2")]] := by
  decide

/-- The Prefix Stripper as the spec words it: drop an empty trimmed fragment,
emit the remainder after the leading `"data: "` tag when present, otherwise
pass the fragment through unchanged. -/
def specStrip (s : Str) : List Str :=
  if (jsTrim s).isEmpty then []
  else if dataTag.isPrefixOf s then [s.drop dataTag.length]
  else [s]

/-- Claim C7: the Prefix Stripper contract.  `transformServerEvent` agrees
with the spec-worded stripper on every fragment (in particular the literal
offset 6 in `slice(6)` is the length of `"data: "`), and it enqueues at most
one output per input.  Statelessness is reflected by its type: it is a pure
function of the single fragment. -/
theorem prefix_stripper_contract (s : Str) :
    transformServerEvent s = specStrip s ∧ (transformServerEvent s).length ≤ 1 := by
  have hlen : dataTag.length = 6 := rfl
  constructor
  · by_cases h1 : (jsTrim s).isEmpty <;> by_cases h2 : dataTag.isPrefixOf s <;>
      simp [transformServerEvent, specStrip, h1, h2, hlen]
  · by_cases h1 : (jsTrim s).isEmpty <;> by_cases h2 : dataTag.isPrefixOf s <;>
      simp [transformServerEvent, h1, h2]

/-- Claim C4: the Event Decoder is total (the embedding returns, modelling the
`try`/`catch` that prevents any exception from escaping) and enqueues exactly
zero events when the record trims to empty and exactly one event otherwise. -/
theorem decoder_total_one_event (s : Str) :
    (transformRunEvent s).length = if (jsTrim s).isEmpty then 0 else 1 := by
  by_cases h : (jsTrim s).isEmpty
  · simp [transformRunEvent, h]
  · cases hp : jsonParse s with
    | error e => simp [transformRunEvent, h, hp]
    | ok v =>
      cases v with
      | arr xs =>
        match xs with
        | [] => simp [transformRunEvent, h, hp]
        | [e0] => simp [transformRunEvent, h, hp]
        | e0 :: e1 :: rest =>
          by_cases ht : validTag e0 <;> simp [transformRunEvent, h, hp, ht]
      | null => simp [transformRunEvent, h, hp]
      | bool b => simp [transformRunEvent, h, hp]
      | num n => simp [transformRunEvent, h, hp]
      | strV t => simp [transformRunEvent, h, hp]
      | obj o => simp [transformRunEvent, h, hp]

theorem endsWithDelim_emitRecord (s : Str) : endsWithDelim (emitRecord s) = true := by
  show ((s ++ delim).reverse.take 2 == ['\n', '\n']) = true
  rw [show delim = ['\n', '\n'] from rfl, List.reverse_append]
  simp

theorem mem_emitWith {r : Str} {p : Option Str} {c : Str} (h : r ∈ emitWith p c) :
    endsWithDelim r = true := by
  cases p with
  | none =>
    simp [emitWith] at h
    subst h
    exact endsWithDelim_emitRecord c
  | some b =>
    simp [emitWith, List.mem_map] at h
    obtain ⟨x, _, hx⟩ := h
    subst hx
    exact endsWithDelim_emitRecord x

theorem repairLoop_ends (missing : Bool) (segs : List Str) :
    ∀ (p : Option Str) (r : Str), r ∈ (repairLoop missing p segs).1 →
      endsWithDelim r = true := by
  induction segs with
  | nil => intro p r h; simp [repairLoop] at h
  | cons c rest ih =>
    intro p r h
    cases rest with
    | nil =>
      by_cases hm : missing
      · simp [repairLoop, hm] at h
      · simp [repairLoop, hm] at h
        exact mem_emitWith h
    | cons c2 rest2 =>
      simp only [repairLoop, List.mem_append] at h
      rcases h with h | h
      · exact mem_emitWith h
      · exact ih none r h

/-- Claim C8: every record enqueued by `transformChunkRepair`, from any input
fragment and any pending-buffer state, ends with the two-character record
delimiter `"\n\n"` (each emitted segment is re-suffixed with the delimiter by
the local `enqueue`). -/
theorem reassembler_record_delimited (chunk : Str) (pending : Option Str) (r : Str)
    (h : r ∈ (transformChunkRepair chunk pending).1) : endsWithDelim r = true := by
  unfold transformChunkRepair at h
  exact repairLoop_ends _ _ _ _ h

/-- Witness for claim C8 at a concrete fragment. -/
theorem reassembler_record_delimited_witness :
    str "a\n\n" ∈ (transformChunkRepair (str "a\n\n") none).1 ∧
      endsWithDelim (str "a\n\n") = true :=
  ⟨by decide, reassembler_record_delimited (str "a\n\n") none (str "a\n\n") (by decide)⟩

/-- Model of the coercion `typeof chunk === "string" ? chunk : String(chunk)`
performed at the head of `transformServerEvent` and `transformChunkRepair`. -/
def coerceChunk (v : Js) : Str :=
  match v with
  | .strV s => s
  | v => jsToString v

/-- `transformServerEvent` on an arbitrary JavaScript value. -/
def transformServerEventJs (v : Js) : List Str := transformServerEvent (coerceChunk v)

/-- `transformChunkRepair` on an arbitrary JavaScript value. -/
def transformChunkRepairJs (v : Js) (pending : Option Str) : List Str × Option Str :=
  transformChunkRepair (coerceChunk v) pending

/-- Claim C10: non-string chunks are coerced, not rejected.  Both transforms
convert a non-string chunk with `String(...)` and then behave exactly as on
the resulting text (the embedding is total, so no input throws); in
particular the number `123` is processed as the text `"123"` and `null` as
the text `"null"`. -/
theorem chunk_coercion (v : Js) (pending : Option Str) :
    transformServerEventJs v = transformServerEvent (coerceChunk v) ∧
      transformChunkRepairJs v pending = transformChunkRepair (coerceChunk v) pending ∧
      transformServerEventJs (.num (str "123")) = transformServerEvent (str "123") ∧
      transformChunkRepairJs (.num (str "123")) pending =
        transformChunkRepair (str "123") pending ∧
      transformServerEventJs .null = transformServerEvent (str "null") ∧
      transformChunkRepairJs .null pending = transformChunkRepair (str "null") pending :=
  ⟨rfl, rfl, rfl, rfl, rfl, rfl⟩

/-- Spec-side predicate for the Continuation Finder: an event whose first
element is `"input"` or `"output"` and whose tuple has more than two
elements. -/
def carriesToken (e : Event) : Bool :=
  decide (2 < e.length) &&
    (match e.head? with
     | some (.strV s) => s == str "input" || s == str "output"
     | _ => false)

theorem tokenOf_eq_ite (e : Event) :
    tokenOf e = if carriesToken e then e[2]? else none := by
  match e with
  | [] => rfl
  | [e0] => simp [tokenOf, carriesToken]
  | [e0, e1] => simp [tokenOf, carriesToken]
  | e0 :: e1 :: t :: rest =>
    cases e0 with
    | strV s =>
      by_cases h : (s == str "input" || s == str "output") = true <;>
        simp [tokenOf, carriesToken, h]
    | null => simp [tokenOf, carriesToken]
    | bool b => simp [tokenOf, carriesToken]
    | num n => simp [tokenOf, carriesToken]
    | arr xs => simp [tokenOf, carriesToken]
    | obj o => simp [tokenOf, carriesToken]

theorem carriesToken_getElem {e : Event} (h : carriesToken e = true) :
    ∃ t, e[2]? = some t := by
  have hlen : 2 < e.length := by
    have h' := h
    simp only [carriesToken, Bool.and_eq_true, decide_eq_true_eq] at h'
    exact h'.1
  exact ⟨e[2], (List.getElem?_eq_some.2 ⟨hlen, rfl⟩)⟩

theorem findToken_eq_find (l : List Event) :
    findToken l = (l.find? carriesToken).bind (fun e => e[2]?) := by
  induction l with
  | nil => rfl
  | cons e rest ih =>
    rw [findToken, tokenOf_eq_ite e]
    by_cases h : carriesToken e = true
    · obtain ⟨t, ht⟩ := carriesToken_getElem h
      simp [h, ht, List.find?_cons]
    · simp [h, ih, List.find?_cons]

/-- Claim C6: the Continuation Finder.  `getNextToken` returns the third
element of the last event in the list (first, scanning from the end) whose
first element is `"input"` or `"output"` and whose tuple has more than two
elements, and returns `none` when no such event exists — in particular on the
empty list and on lists containing only error events. -/
theorem getNextToken_contract (evs : List Event) :
    getNextToken evs = (evs.reverse.find? carriesToken).bind (fun e => e[2]?) :=
  findToken_eq_find evs.reverse

/-- Claim C9: the shipped Event Decoder performs structural-shape-only
validation.  Whenever a record parses to a JSON array of at least two
elements whose first element is one of the three discriminants, the parsed
array is enqueued unchanged — no per-type payload field is examined, so a
shape-valid event with missing or malformed payload passes through as a
valid event. -/
theorem decoder_shape_only (s : Str) (e0 e1 : Js) (rest : List Js)
    (hne : (jsTrim s).isEmpty = false)
    (hp : jsonParse s = .ok (.arr (e0 :: e1 :: rest)))
    (ht : e0 = .strV (str "input") ∨ e0 = .strV (str "output") ∨ e0 = .strV (str "error")) :
    transformRunEvent s = [e0 :: e1 :: rest] := by
  have hv : validTag e0 = true := by
    rcases ht with h | h | h <;> subst h <;> rfl
  simp [transformRunEvent, hne, hp, hv]

/-- Witness for claim C9: the record `["input", 5]` is shape-valid but has no
node identifier and no input-argument schema; it is enqueued unchanged. -/
theorem decoder_shape_only_witness :
    (jsTrim (str "[\"input\", 5]")).isEmpty = false ∧
      jsonParse (str "[\"input\", 5]") = .ok (.arr [.strV (str "input"), .num (str "5")]) ∧
      transformRunEvent (str "[\"input\", 5]") = [[.strV (str "input"), .num (str "5")]] :=
  ⟨by decide, by decide,
    decoder_shape_only (str "[\"input\", 5]") (.strV (str "input")) (.num (str "5")) []
      (by decide) (by decide) (Or.inl rfl)⟩

/-- Shape validity as checked by the decoder: a JSON array with at least two
elements. -/
def isShapeValid (v : Js) : Bool :=
  match v with
  | .arr (_ :: _ :: _) => true
  | _ => false

theorem prefix_isPrefixOf (a : Str) : ∀ b : Str, a.isPrefixOf (a ++ b) = true := by
  intro b
  rw [List.isPrefixOf_iff_prefix]
  exact List.prefix_append a b

/-- Claim C5: the decoder's failure messages.  For every record that does not
trim to empty: a parse failure yields one error event whose message is
exactly `"Failed to parse event: "` followed by the parser's reason (so it
contains that literal as a prefix); a parsed value that is not an array of at
least two elements yields the fixed invalid-format message; an array of at
least two elements whose first element is not a known discriminant yields
`"Invalid event type: "` with the offending first element interpolated by
JavaScript string coercion. -/
theorem decoder_failure_messages (s : Str) (hne : (jsTrim s).isEmpty = false) :
    (∀ e, jsonParse s = .error e →
      transformRunEvent s = [errEvent (msgFailedParse e)] ∧
        (str "Failed to parse event: ").isPrefixOf (msgFailedParse e) = true) ∧
    (∀ v, jsonParse s = .ok v → isShapeValid v = false →
      transformRunEvent s = [errEvent msgInvalidFormat]) ∧
    (∀ e0 e1 rest, jsonParse s = .ok (.arr (e0 :: e1 :: rest)) → validTag e0 = false →
      transformRunEvent s = [errEvent (msgInvalidType e0)]) := by
  refine ⟨?_, ?_, ?_⟩
  · intro e hp
    exact ⟨by simp [transformRunEvent, hne, hp], prefix_isPrefixOf _ e⟩
  · intro v hp hv
    cases v with
    | arr xs =>
      match xs with
      | [] => simp [transformRunEvent, hne, hp]
      | [e0] => simp [transformRunEvent, hne, hp]
      | e0 :: e1 :: rest => simp [isShapeValid] at hv
    | null => simp [transformRunEvent, hne, hp]
    | bool b => simp [transformRunEvent, hne, hp]
    | num n => simp [transformRunEvent, hne, hp]
    | strV t => simp [transformRunEvent, hne, hp]
    | obj o => simp [transformRunEvent, hne, hp]
  · intro e0 e1 rest hp ht
    simp [transformRunEvent, hne, hp, ht]

/-- Witness for claim C5 at three concrete records, one per failure mode. -/
theorem decoder_failure_messages_witness :
    (transformRunEvent (str "nope") =
        [errEvent (msgFailedParse (str "Unexpected token in JSON"))] ∧
      (str "Failed to parse event: ").isPrefixOf
        (msgFailedParse (str "Unexpected token in JSON")) = true) ∧
    transformRunEvent (str "\x7b\x7d ") = [errEvent msgInvalidFormat] ∧
    transformRunEvent (str "[\"bogus\",1]") =
      [errEvent (msgInvalidType (.strV (str "bogus")))] :=
  ⟨(decoder_failure_messages (str "nope") (by decide)).1 _ (by decide),
   (decoder_failure_messages (str "\x7b\x7d ") (by decide)).2.1 (Js.obj [])
     (by decide) (by decide),
   (decoder_failure_messages (str "[\"bogus\",1]") (by decide)).2.2
     (.strV (str "bogus")) (.num (str "1")) [] (by decide) (by decide)⟩

theorem concatAll_append (a b : List (List α)) :
    concatAll (a ++ b) = concatAll a ++ concatAll b := by
  induction a with
  | nil => rfl
  | cons x xs ih => simp [concatAll, ih]

theorem stripAll_append (a b : List Str) : stripAll (a ++ b) = stripAll a ++ stripAll b := by
  simp [stripAll, concatAll_append]

theorem decodeAll_append (a b : List Str) :
    decodeAll (a ++ b) = decodeAll a ++ decodeAll b := by
  simp [decodeAll, concatAll_append]

/-- Claim C2 (amended): the pipeline built by `runBoard` applies the Chunk
Reassembler first, then the Prefix Stripper, then the Event Decoder.  The
streaming composition — each fragment flows through all three stages before
the next fragment arrives — is equal, as a function from fragment sequences
to event sequences, to the batch composition of the three stages in that
code order. -/
theorem runBoard_pipeline_composed (frags : List Str) (p : Option Str) :
    runBoardPipe frags p = decodeAll (stripAll (repairAll frags p).1) := by
  induction frags generalizing p with
  | nil => rfl
  | cons f rest ih =>
    show decodeAll (stripAll (transformChunkRepair f p).1) ++
        runBoardPipe rest (transformChunkRepair f p).2 = _
    rw [ih]
    show _ = decodeAll (stripAll ((transformChunkRepair f p).1 ++
      (repairAll rest (transformChunkRepair f p).2).1))
    rw [stripAll_append, decodeAll_append]

/-- Counterexample to claim C2 as stated: on a single fragment holding two
prefixed records, the pipeline in `runBoard`'s order (Reassembler before
Stripper) decodes both records, while the spec-ordered composition (Stripper
first) strips only the first `"data: "` tag and then fails to parse the
second record. -/
theorem pipeline_spec_order_counterexample :
    runBoardPipe [str "data: [\"error\",\"e1\"]\n\ndata: [\"error\",\"e2\"]\n\n"] none ≠
      specOrderPipe [str "data: [\"error\",\"e1\"]\n\ndata: [\"error\",\"e2\"]\n\n"] := by
  decide

/-- The claim-C3 property at a list of decoded events: every event whose
first element is the discriminant `"error"` has exactly two elements. -/
def errorTokenFree (evs : List Event) : Prop :=
  ∀ e ∈ evs, e.head? = some (.strV (str "error")) → e.length = 2

instance (evs : List Event) : Decidable (errorTokenFree evs) := by
  unfold errorTokenFree
  infer_instance

/-- Counterexample to claim C3 as stated: the record `["error","m","t"]` is a
JSON array of three elements whose first element is a known discriminant, so
the decoder enqueues it unchanged — an output event tagged `"error"` with
`length = 3`. -/
theorem error_token_counterexample :
    ¬ errorTokenFree (transformRunEvent (str "[\"error\",\"m\",\"t\"]")) := by
  decide

/-- Claim C3 (amended): every event the Event Decoder enqueues is either the
parsed JSON array passed through unchanged, or an error event synthesized by
the decoder itself, and every synthesized error event has exactly two
elements with first element `"error"`.  In particular no synthesized error
event carries a continuation token; only a pass-through of an (already
malformed) input record can. -/
theorem decoder_event_provenance (s : Str) (e : Event) (h : e ∈ transformRunEvent s) :
    jsonParse s = .ok (.arr e) ∨
      (e.length = 2 ∧ e.head? = some (.strV (str "error"))) := by
  by_cases h0 : (jsTrim s).isEmpty
  · simp [transformRunEvent, h0] at h
  · cases hp : jsonParse s with
    | error msg =>
      simp [transformRunEvent, h0, hp] at h
      subst h
      exact Or.inr ⟨rfl, rfl⟩
    | ok v =>
      cases v with
      | arr xs =>
        match xs with
        | [] =>
          simp [transformRunEvent, h0, hp] at h
          subst h
          exact Or.inr ⟨rfl, rfl⟩
        | [e0] =>
          simp [transformRunEvent, h0, hp] at h
          subst h
          exact Or.inr ⟨rfl, rfl⟩
        | e0 :: e1 :: rest =>
          by_cases ht : validTag e0
          · simp [transformRunEvent, h0, hp, ht] at h
            subst h
            exact Or.inl rfl
          · simp [transformRunEvent, h0, hp, ht] at h
            subst h
            exact Or.inr ⟨rfl, rfl⟩
      | null =>
        simp [transformRunEvent, h0, hp] at h
        subst h
        exact Or.inr ⟨rfl, rfl⟩
      | bool b =>
        simp [transformRunEvent, h0, hp] at h
        subst h
        exact Or.inr ⟨rfl, rfl⟩
      | num n =>
        simp [transformRunEvent, h0, hp] at h
        subst h
        exact Or.inr ⟨rfl, rfl⟩
      | strV t =>
        simp [transformRunEvent, h0, hp] at h
        subst h
        exact Or.inr ⟨rfl, rfl⟩
      | obj o =>
        simp [transformRunEvent, h0, hp] at h
        subst h
        exact Or.inr ⟨rfl, rfl⟩

/-- Witness for the amended claim C3 at the counterexample record. -/
theorem decoder_event_provenance_witness :
    jsonParse (str "[\"error\",\"m\",\"t\"]") =
        .ok (.arr [.strV (str "error"), .strV (str "m"), .strV (str "t")]) ∨
      (([.strV (str "error"), .strV (str "m"), .strV (str "t")] : Event).length = 2 ∧
        ([.strV (str "error"), .strV (str "m"), .strV (str "t")] : Event).head? =
          some (.strV (str "error"))) :=
  decoder_event_provenance (str "[\"error\",\"m\",\"t\"]")
    [.strV (str "error"), .strV (str "m"), .strV (str "t")] (by decide)

/-- Claim C1 is a guarantee the code does not meet: feeding the well-formed
stream `"a\n\nb\n\n"` as the two fragments `"a\n\nb\n"` and `"\n"` (the cut
splits the second record delimiter between its two newlines) enqueues only
the first record, while feeding the same text as a single fragment enqueues
both.  The completed second record is left in the pending buffer and never
re-examined: the reassembler only re-splits the pending text when a later
fragment delivers a complete segment. -/
theorem chunk_repair_boundary_divergence :
    (repairAll [str "a\n\nb\n", str "\n"] none).1 = [str "a\n\n"] ∧
      (repairAll [str "a\n\nb\n\n"] none).1 = [str "a\n\n", str "b\n\n"] ∧
      (repairAll [str "a\n\nb\n", str "\n"] none).2 = some (str "b\n\n") := by
  decide

end Breadboard
